import Mathlib

/-!
Verification development for the Hall-of-Fame enhancer dashboard
(`data_processor.py` and the application module).

The Python data frames are shallowly embedded as Lean lists of typed rows:
pandas `NaN` cells become `Option` fields, floating-point scores become exact
rationals (`ℚ`), and every pandas operation used by the program (filtering,
`dropna`, `unique`, `drop_duplicates`, `sort_values`, stable key-sorting) is
translated to an executable list function below.  Purely cosmetic plotly
attributes (colorscales, fonts, margins, hover templates, thousand-separator
formatting) are not modelled; the structural content of every chart
(branching, panel lists, series, ranges, heights, messages) is.
-/

namespace HallOfFame

/-! ## Generic list helpers mirroring pandas primitives -/

/-- First-occurrence deduplication with an explicit list of already-seen
values.  `dedupFirst [] l` keeps the first occurrence of every value of `l`
in order, exactly like pandas `Series.unique` / `DataFrame.drop_duplicates`
(which keep the first occurrence). -/
def dedupFirst [DecidableEq α] (seen : List α) : List α → List α
  | [] => []
  | a :: l => if a ∈ seen then dedupFirst seen l else a :: dedupFirst (a :: seen) l

theorem dedupFirst_cons_mem [DecidableEq α] {seen : List α} {a : α} (l : List α)
    (h : a ∈ seen) : dedupFirst seen (a :: l) = dedupFirst seen l := by
  rw [dedupFirst, if_pos h]

theorem dedupFirst_cons_not_mem [DecidableEq α] {seen : List α} {a : α} (l : List α)
    (h : a ∉ seen) : dedupFirst seen (a :: l) = a :: dedupFirst (a :: seen) l := by
  rw [dedupFirst, if_neg h]

theorem mem_dedupFirst [DecidableEq α] (seen : List α) (l : List α) (a : α) :
    a ∈ dedupFirst seen l ↔ a ∈ l ∧ a ∉ seen := by
  induction l generalizing seen with
  | nil => simp [dedupFirst]
  | cons b l ih =>
    by_cases hb : b ∈ seen
    · rw [dedupFirst_cons_mem l hb, ih, List.mem_cons]
      constructor
      · rintro ⟨h1, h2⟩; exact ⟨Or.inr h1, h2⟩
      · rintro ⟨h1 | h1, h2⟩
        · exact absurd (h1 ▸ hb) h2
        · exact ⟨h1, h2⟩
    · rw [dedupFirst_cons_not_mem l hb, List.mem_cons, List.mem_cons, ih]
      constructor
      · rintro (rfl | ⟨h1, h2⟩)
        · exact ⟨Or.inl rfl, hb⟩
        · refine ⟨Or.inr h1, fun hc => h2 (List.mem_cons_of_mem _ hc)⟩
      · rintro ⟨rfl | h1, h2⟩
        · exact Or.inl rfl
        · by_cases hab : a = b
          · exact Or.inl hab
          · refine Or.inr ⟨h1, fun hc => ?_⟩
            rcases List.mem_cons.1 hc with h | h
            · exact hab h
            · exact h2 h

theorem dedupFirst_nil_ne_nil [DecidableEq α] (l : List α) (hl : l ≠ []) :
    dedupFirst [] l ≠ [] := by
  cases l with
  | nil => exact absurd rfl hl
  | cons a l => simp [dedupFirst]

/-- A seen-list can be replaced by any list with the same members. -/
theorem dedupFirst_congr_seen [DecidableEq α] (seen₁ seen₂ : List α) (l : List α)
    (h : ∀ a, a ∈ seen₁ ↔ a ∈ seen₂) :
    dedupFirst seen₁ l = dedupFirst seen₂ l := by
  induction l generalizing seen₁ seen₂ with
  | nil => rfl
  | cons b l ih =>
    by_cases hb : b ∈ seen₁
    · rw [dedupFirst, dedupFirst, if_pos hb, if_pos ((h b).1 hb), ih _ _ h]
    · rw [dedupFirst, dedupFirst, if_neg hb, if_neg (fun hc => hb ((h b).2 hc)),
        ih (b :: seen₁) (b :: seen₂)]
      intro a
      simp [h a]

/-- Adding to the seen-list a value that does not occur in the input does not
change the result. -/
theorem dedupFirst_seen_cons_of_not_mem [DecidableEq α] {a : α} (seen : List α)
    (l : List α) (ha : a ∉ l) : dedupFirst (a :: seen) l = dedupFirst seen l := by
  induction l generalizing seen with
  | nil => rfl
  | cons b l ih =>
    have hab : b ≠ a := fun h => ha (h ▸ List.mem_cons_self _ _)
    have hal : a ∉ l := fun h => ha (List.mem_cons_of_mem _ h)
    by_cases hb : b ∈ seen
    · rw [dedupFirst_cons_mem l (List.mem_cons_of_mem _ hb), dedupFirst_cons_mem l hb, ih _ hal]
    · have hb' : b ∉ a :: seen := fun h => by
        rcases List.mem_cons.1 h with h | h
        · exact hab h
        · exact hb h
      rw [dedupFirst_cons_not_mem l hb', dedupFirst_cons_not_mem l hb,
        dedupFirst_congr_seen (b :: a :: seen) (a :: b :: seen) l (by intro x; constructor <;>
          (intro hx; rcases List.mem_cons.1 hx with h | hx
           · first
             | exact h ▸ List.mem_cons_of_mem _ (List.mem_cons_self _ _)
             | exact h ▸ List.mem_cons_self _ _
           · rcases List.mem_cons.1 hx with h | hx
             · first
               | exact h ▸ List.mem_cons_self _ _
               | exact h ▸ List.mem_cons_of_mem _ (List.mem_cons_self _ _)
             · exact List.mem_cons_of_mem _ (List.mem_cons_of_mem _ hx))),
        ih (b :: seen) hal]

/-- Deduplication commutes with filtering. -/
theorem filter_dedupFirst [DecidableEq α] (p : α → Bool) (seen : List α) (l : List α) :
    (dedupFirst seen l).filter p = dedupFirst seen (l.filter p) := by
  induction l generalizing seen with
  | nil => rfl
  | cons b l ih =>
    by_cases hb : b ∈ seen
    · by_cases hp : p b
      · rw [dedupFirst_cons_mem l hb, List.filter_cons, if_pos hp, dedupFirst_cons_mem _ hb, ih]
      · rw [dedupFirst_cons_mem l hb, List.filter_cons, if_neg hp, ih]
    · by_cases hp : p b
      · rw [dedupFirst_cons_not_mem l hb, List.filter_cons, if_pos hp, List.filter_cons,
          if_pos hp, dedupFirst_cons_not_mem _ hb, ih]
      · rw [dedupFirst_cons_not_mem l hb, List.filter_cons, if_neg hp, List.filter_cons,
          if_neg hp, ih, dedupFirst_seen_cons_of_not_mem seen (l.filter p)
            (fun h => absurd (List.mem_filter.1 h).2 hp)]

theorem nodup_dedupFirst [DecidableEq α] (seen : List α) (l : List α) :
    (dedupFirst seen l).Nodup := by
  induction l generalizing seen with
  | nil => exact List.nodup_nil
  | cons b l ih =>
    by_cases hb : b ∈ seen
    · rw [dedupFirst, if_pos hb]; exact ih seen
    · rw [dedupFirst, if_neg hb]
      refine List.nodup_cons.2 ⟨fun hc => ?_, ih (b :: seen)⟩
      exact ((mem_dedupFirst _ _ _).1 hc).2 (List.mem_cons_self _ _)

/-- Value of a decimal-digit string, as computed by Python `int` on a run of
ASCII digits. -/
def digitsToNat (cs : List Char) : Nat :=
  cs.foldl (fun n c => n * 10 + (c.toNat - '0'.toNat)) 0

/-- `extract_cell_type_number` from `VisualizationGenerator.create_peak_visualization`:
take the leading run of ASCII digits (regex match of a digit-run anchored at the
start) and convert it with `int`; when there is no leading digit the function
returns the literal fallback `999`. -/
def extract_cell_type_number (s : String) : Nat :=
  match s.data.takeWhile Char.isDigit with
  | [] => 999
  | ds => digitsToNat ds

/-- Comparison used to sort cell-type labels in the track visualisation. -/
def ctKeyLe (a b : String) : Prop := extract_cell_type_number a ≤ extract_cell_type_number b

instance : DecidableRel ctKeyLe := fun a b => Nat.decLe _ _

instance : IsTotal String ctKeyLe := ⟨fun a b => Nat.le_total _ _⟩

instance : IsTrans String ctKeyLe := ⟨fun _ _ _ => Nat.le_trans⟩

/-! ## Python string ordering

Python `sorted` compares strings lexicographically by code point.  Lean's
built-in `String` order is propositionally the same but its decision procedure
does not reduce in the kernel, so we embed the comparison directly on the
character list. -/

/-- Lexicographic (code-point) string comparison, as used by Python `sorted`. -/
def listCharLeB : List Char → List Char → Bool
  | [], _ => true
  | _ :: _, [] => false
  | a :: as, b :: bs =>
    if a.toNat < b.toNat then true
    else if b.toNat < a.toNat then false
    else listCharLeB as bs

/-- The ordering predicate Python `sorted` uses on strings. -/
def pyStrLe (a b : String) : Prop := listCharLeB a.data b.data = true

instance : DecidableRel pyStrLe := fun a b => instDecidableEqBool _ _

theorem listCharLeB_total : ∀ as bs : List Char,
    listCharLeB as bs = true ∨ listCharLeB bs as = true
  | [], _ => Or.inl rfl
  | _ :: _, [] => Or.inr rfl
  | a :: as, b :: bs => by
    rcases Nat.lt_trichotomy a.toNat b.toNat with h | h | h
    · exact Or.inl (by simp [listCharLeB, h])
    · have hn : ¬ a.toNat < b.toNat := by omega
      have hn' : ¬ b.toNat < a.toNat := by omega
      rcases listCharLeB_total as bs with h2 | h2
      · exact Or.inl (by simp [listCharLeB, hn, hn', h2])
      · exact Or.inr (by simp [listCharLeB, hn, hn', h2])
    · exact Or.inr (by simp [listCharLeB, h])

theorem listCharLeB_trans : ∀ as bs cs : List Char,
    listCharLeB as bs = true → listCharLeB bs cs = true → listCharLeB as cs = true
  | [], _, _ => fun _ _ => rfl
  | _ :: _, [], _ => fun h _ => by simp [listCharLeB] at h
  | _ :: _, _ :: _, [] => fun _ h => by simp [listCharLeB] at h
  | a :: as, b :: bs, c :: cs => by
    intro h1 h2
    simp only [listCharLeB] at h1 h2 ⊢
    by_cases hab : a.toNat < b.toNat <;> by_cases hbc : b.toNat < c.toNat <;>
      by_cases hba : b.toNat < a.toNat <;> by_cases hcb : c.toNat < b.toNat <;>
        simp_all <;>
          first
            | omega
            | (have hac : a.toNat < c.toNat := by omega; simp [hac])
            | (have hac : ¬ a.toNat < c.toNat := by omega
               have hca : ¬ c.toNat < a.toNat := by omega
               simp [hac, hca]
               first
                 | exact listCharLeB_trans as bs cs h1 h2
                 | exact ⟨by omega, listCharLeB_trans as bs cs h1 h2⟩)

instance : IsTotal String pyStrLe := ⟨fun a b => listCharLeB_total a.data b.data⟩

instance : IsTrans String pyStrLe := ⟨fun a b c => listCharLeB_trans a.data b.data c.data⟩

/-- Python `str.split` restricted to a single separator character, applied to
the character list of a string, as in `x.split('_')`. -/
def splitOnChar (c : Char) : List Char → List (List Char)
  | [] => [[]]
  | a :: as =>
    let r := splitOnChar c as
    if a = c then [] :: r
    else
      match r with
      | [] => [[a]]
      | g :: gs => (a :: g) :: gs

/-! ## Facet filter engine (`get_filtered_options` in the application module) -/

/-- One row of the enhancer/experiment metadata table (`base_metadata`).
Each cell is `Option`-valued because pandas cells can be `NaN`; the source
column name of `gc_delivered` is the string `GC delivered`.  Imaging-link
columns are omitted: no claim mentions them and the filter engine never reads
them. -/
structure MetadataRow where
  enhancer_id : Option String
  cargo : Option String
  experiment : Option String
  proximal_gene : Option String
  gc_delivered : Option String
  deriving DecidableEq, Repr

/-- The six facet names of the selection dictionary, in the insertion order of
`st.session_state.filter_state`. -/
inductive Facet
  | enhancer
  | cargo
  | experiment
  | gene
  | gc_delivered
  | cell_type
  deriving DecidableEq, Repr

/-- A facet-selection mapping: each facet holds either a chosen value or the
sentinel string `All`. -/
structure FilterState where
  enhancer : String
  cargo : String
  experiment : String
  gene : String
  gc_delivered : String
  cell_type : String
  deriving DecidableEq, Repr

/-- The selection dictionary's value for one facet. -/
def facetValue (sel : FilterState) : Facet → String
  | .enhancer => sel.enhancer
  | .cargo => sel.cargo
  | .experiment => sel.experiment
  | .gene => sel.gene
  | .gc_delivered => sel.gc_delivered
  | .cell_type => sel.cell_type

/-- Iteration order of `selected_filters.items()` (Python dicts preserve
insertion order). -/
def facetOrder : List Facet :=
  [.enhancer, .cargo, .experiment, .gene, .gc_delivered, .cell_type]

/-- The metadata column a facet filters on. `cell_type` has no corresponding
branch in the source's if/elif chain, so it contributes no column. -/
def facetColumn : Facet → MetadataRow → Option String
  | .enhancer => fun r => r.enhancer_id
  | .cargo => fun r => r.cargo
  | .experiment => fun r => r.experiment
  | .gene => fun r => r.proximal_gene
  | .gc_delivered => fun r => r.gc_delivered
  | .cell_type => fun _ => none

/-- One iteration of the filter loop inside `get_options_for_filter`: apply
facet `f`'s equality filter unless `f` is the excluded facet or its selection
is `All`.  The `cell_type` facet matches no branch of the source's if/elif
chain and therefore never filters. -/
def applyFacetFilter (sel : FilterState) (exclude : Facet) (acc : List MetadataRow)
    (f : Facet) : List MetadataRow :=
  if f ≠ exclude ∧ facetValue sel f ≠ "All" then
    match f with
    | .enhancer => acc.filter (fun r => r.enhancer_id == some sel.enhancer)
    | .cargo => acc.filter (fun r => r.cargo == some sel.cargo)
    | .experiment => acc.filter (fun r => r.experiment == some sel.experiment)
    | .gene => acc.filter (fun r => r.proximal_gene == some sel.gene)
    | .gc_delivered => acc.filter (fun r => r.gc_delivered == some sel.gc_delivered)
    | .cell_type => acc
  else acc

/-- `get_options_for_filter(exclude_filter)`: apply every other selected
facet's equality filter to the base metadata. -/
def get_options_for_filter (sel : FilterState) (base_metadata : List MetadataRow)
    (exclude : Facet) : List MetadataRow :=
  facetOrder.foldl (applyFacetFilter sel exclude) base_metadata

/-- `sorted([x for x in df[col].dropna().unique() if x != ''])` guarded by the
source's emptiness check on the filtered frame. -/
def availableValues (f : Facet) (rows : List MetadataRow) : List String :=
  if rows = [] then []
  else
    List.insertionSort pyStrLe
      ((dedupFirst [] (rows.filterMap (facetColumn f))).filter (fun s => s != ""))

/-- Numeric key used to order the fixed cell-type catalog:
`int(x.split('_')[2])`. -/
def cellTypeSortKey (s : String) : Nat :=
  digitsToNat ((splitOnChar '_' s.data).getD 2 [])

/-- Ordering on catalog labels by their embedded integer. -/
def catalogKeyLe (a b : String) : Prop := cellTypeSortKey a ≤ cellTypeSortKey b

instance : DecidableRel catalogKeyLe := fun a b => Nat.decLe _ _

/-- The fixed cell-type catalog:
`sorted([f"cell_type_{i}" for i in range(1, 35)], key=lambda x: int(x.split('_')[2]))`. -/
def base_cell_types : List String :=
  List.insertionSort catalogKeyLe
    ((List.range 34).map (fun i => "cell_type_" ++ toString (i + 1)))

/-- The record returned by `get_filtered_options`. -/
structure FilteredOptions where
  enhancers : List String
  cargos : List String
  experiments : List String
  genes : List String
  gc_delivered : List String
  cell_types : List String
  deriving DecidableEq, Repr

/-- `get_filtered_options(selected_filters, base_metadata)` from the
application module.  A `None` or empty base metadata table returns the record
of empty lists — including an empty `cell_types` list. -/
def get_filtered_options (sel : FilterState) (base_metadata : List MetadataRow) :
    FilteredOptions :=
  if base_metadata = [] then
    { enhancers := [], cargos := [], experiments := [], genes := []
      gc_delivered := [], cell_types := [] }
  else
    { enhancers := availableValues .enhancer (get_options_for_filter sel base_metadata .enhancer)
      cargos := availableValues .cargo (get_options_for_filter sel base_metadata .cargo)
      experiments := availableValues .experiment (get_options_for_filter sel base_metadata .experiment)
      genes := availableValues .gene (get_options_for_filter sel base_metadata .gene)
      gc_delivered := availableValues .gc_delivered (get_options_for_filter sel base_metadata .gc_delivered)
      cell_types := base_cell_types }

/-- Bridge predicate: the row-level effect of one iteration of the source's
filter loop, expressed as a Boolean kept/dropped decision. -/
def seqPredB (sel : FilterState) (exclude : Facet) (g : Facet) (r : MetadataRow) : Bool :=
  if g ≠ exclude ∧ facetValue sel g ≠ "All" then
    match g with
    | .enhancer => r.enhancer_id == some sel.enhancer
    | .cargo => r.cargo == some sel.cargo
    | .experiment => r.experiment == some sel.experiment
    | .gene => r.proximal_gene == some sel.gene
    | .gc_delivered => r.gc_delivered == some sel.gc_delivered
    | .cell_type => true
  else true

theorem applyFacetFilter_eq_filter (sel : FilterState) (exclude : Facet)
    (acc : List MetadataRow) (f : Facet) :
    applyFacetFilter sel exclude acc f = acc.filter (seqPredB sel exclude f) := by
  have htriv : (∀ r : MetadataRow, seqPredB sel exclude f r = true) →
      acc = acc.filter (seqPredB sel exclude f) := fun hq =>
    (List.filter_true acc).symm.trans (List.filter_congr (fun r _ => (hq r).symm))
  by_cases h : f ≠ exclude ∧ facetValue sel f ≠ "All"
  · cases f with
    | cell_type =>
      rw [applyFacetFilter.eq_def, if_pos h]
      exact htriv (fun r => by rw [seqPredB.eq_def, if_pos h])
    | enhancer =>
      rw [applyFacetFilter.eq_def, if_pos h]
      exact List.filter_congr (fun r _ => by rw [seqPredB.eq_def, if_pos h])
    | cargo =>
      rw [applyFacetFilter.eq_def, if_pos h]
      exact List.filter_congr (fun r _ => by rw [seqPredB.eq_def, if_pos h])
    | experiment =>
      rw [applyFacetFilter.eq_def, if_pos h]
      exact List.filter_congr (fun r _ => by rw [seqPredB.eq_def, if_pos h])
    | gene =>
      rw [applyFacetFilter.eq_def, if_pos h]
      exact List.filter_congr (fun r _ => by rw [seqPredB.eq_def, if_pos h])
    | gc_delivered =>
      rw [applyFacetFilter.eq_def, if_pos h]
      exact List.filter_congr (fun r _ => by rw [seqPredB.eq_def, if_pos h])
  · rw [applyFacetFilter.eq_def, if_neg h]
    exact htriv (fun r => by rw [seqPredB.eq_def, if_neg h])

theorem foldl_applyFacetFilter (sel : FilterState) (exclude : Facet) :
    ∀ (fs : List Facet) (md : List MetadataRow),
      fs.foldl (applyFacetFilter sel exclude) md =
        md.filter (fun r => fs.all (fun g => seqPredB sel exclude g r)) := by
  intro fs
  induction fs with
  | nil => intro md; simp
  | cons f fs ih =>
    intro md
    rw [List.foldl_cons, applyFacetFilter_eq_filter, ih, List.filter_filter]
    exact List.filter_congr (fun r _ => by simp [List.all_cons, Bool.and_comm])

/-- The conjunctive keep-condition of the specification, §4.3: a row survives
the co-filtering view for target facet `f` when every other facet is either
unselected (`All`) or matched by equality; `cell_type` is exempt from the
co-filtering dependency graph. -/
def specKeep (f : Facet) (sel : FilterState) (r : MetadataRow) : Bool :=
  facetOrder.all (fun g =>
    g == f || g == Facet.cell_type || facetValue sel g == "All" ||
      facetColumn g r == some (facetValue sel g))

/-- Modelled from the spec's words (§4.3 co-filtering algorithm): for target
facet `f`, filter the base metadata by the equality constraints of every
other selected facet, take the distinct non-null non-empty values of `f`'s
column, and sort ascending lexicographically. -/
def specOptionsFor (f : Facet) (sel : FilterState) (md : List MetadataRow) : List String :=
  List.insertionSort pyStrLe
    (dedupFirst []
      (((md.filter (specKeep f sel)).filterMap (facetColumn f)).filter (fun s => s != "")))

theorem seqPredB_eq_specTerm (sel : FilterState) (f g : Facet) (r : MetadataRow) :
    seqPredB sel f g r =
      (g == f || g == Facet.cell_type || facetValue sel g == "All" ||
        facetColumn g r == some (facetValue sel g)) := by
  cases g with
  | cell_type => simp [seqPredB]
  | enhancer =>
    by_cases hgf : Facet.enhancer = f
    · simp [seqPredB, hgf]
    · by_cases hall : sel.enhancer = "All" <;>
        simp [seqPredB, hgf, hall, facetValue, facetColumn, Ne]
  | cargo =>
    by_cases hgf : Facet.cargo = f
    · simp [seqPredB, hgf]
    · by_cases hall : sel.cargo = "All" <;>
        simp [seqPredB, hgf, hall, facetValue, facetColumn, Ne]
  | experiment =>
    by_cases hgf : Facet.experiment = f
    · simp [seqPredB, hgf]
    · by_cases hall : sel.experiment = "All" <;>
        simp [seqPredB, hgf, hall, facetValue, facetColumn, Ne]
  | gene =>
    by_cases hgf : Facet.gene = f
    · simp [seqPredB, hgf]
    · by_cases hall : sel.gene = "All" <;>
        simp [seqPredB, hgf, hall, facetValue, facetColumn, Ne]
  | gc_delivered =>
    by_cases hgf : Facet.gc_delivered = f
    · simp [seqPredB, hgf]
    · by_cases hall : sel.gc_delivered = "All" <;>
        simp [seqPredB, hgf, hall, facetValue, facetColumn, Ne]

theorem get_options_for_filter_eq_specFilter (sel : FilterState) (md : List MetadataRow)
    (f : Facet) : get_options_for_filter sel md f = md.filter (specKeep f sel) := by
  rw [get_options_for_filter, foldl_applyFacetFilter]
  refine List.filter_congr (fun r _ => ?_)
  rw [specKeep, funext (fun g => seqPredB_eq_specTerm sel f g r)]

theorem availableValues_spec (sel : FilterState) (md : List MetadataRow) (f : Facet) :
    availableValues f (get_options_for_filter sel md f) = specOptionsFor f sel md := by
  rw [get_options_for_filter_eq_specFilter, availableValues, specOptionsFor]
  by_cases h : md.filter (specKeep f sel) = []
  · rw [if_pos h, h]
    rfl
  · rw [if_neg h, filter_dedupFirst]

/-- Projection of the options record for one facet. -/
def optionsField : Facet → FilteredOptions → List String
  | .enhancer => FilteredOptions.enhancers
  | .cargo => FilteredOptions.cargos
  | .experiment => FilteredOptions.experiments
  | .gene => FilteredOptions.genes
  | .gc_delivered => FilteredOptions.gc_delivered
  | .cell_type => FilteredOptions.cell_types

/-- C3: for every filter-selection mapping and every non-empty base metadata
table, the option list computed for each non-`cell_type` facet `F` equals the
distinct non-null non-empty values of `F`'s metadata column filtered by the
equality constraints of every other non-`All` facet (`F`'s own constraint
excluded; `cell_type` is exempt from the co-filtering graph), sorted ascending
lexicographically (code-point order, as Python `sorted`). -/
theorem c3_cofilter_options (f : Facet) (hf : f ≠ Facet.cell_type) (sel : FilterState)
    (md : List MetadataRow) (hmd : md ≠ []) :
    optionsField f (get_filtered_options sel md) = specOptionsFor f sel md := by
  rw [get_filtered_options, if_neg hmd]
  cases f with
  | cell_type => exact absurd rfl hf
  | enhancer => exact availableValues_spec sel md .enhancer
  | cargo => exact availableValues_spec sel md .cargo
  | experiment => exact availableValues_spec sel md .experiment
  | gene => exact availableValues_spec sel md .gene
  | gc_delivered => exact availableValues_spec sel md .gc_delivered

/-- The all-`All` selection. -/
def selAll : FilterState :=
  { enhancer := "All", cargo := "All", experiment := "All", gene := "All"
    gc_delivered := "All", cell_type := "All" }

/-- Concrete selection used by witnesses: cargo and gene are pinned. -/
def selW : FilterState :=
  { enhancer := "All", cargo := "AAV9", experiment := "All", gene := "Gpr88"
    gc_delivered := "All", cell_type := "cell_type_2" }

/-- Concrete metadata table used by witnesses. -/
def mdW : List MetadataRow :=
  [ { enhancer_id := some "E2", cargo := some "AAV9", experiment := some "epifluorescence"
      proximal_gene := some "Gpr88", gc_delivered := some "6.0E+11" }
  , { enhancer_id := some "E1", cargo := some "AAV9", experiment := some "lightsheet"
      proximal_gene := some "Gpr88", gc_delivered := some "1.2E+11" }
  , { enhancer_id := some "E3", cargo := some "PHP.eB", experiment := some "lightsheet"
      proximal_gene := some "Rorb", gc_delivered := none }
  , { enhancer_id := none, cargo := some "AAV9", experiment := some ""
      proximal_gene := some "Gpr88", gc_delivered := some "1.2E+11" } ]

/-- Witness for C3: at a concrete selection and metadata table the equation is
realised with both hypotheses discharged. -/
theorem c3_cofilter_options_witness :
    (Facet.experiment ≠ Facet.cell_type) ∧ (mdW ≠ []) ∧
      optionsField Facet.experiment (get_filtered_options selW mdW) =
        specOptionsFor Facet.experiment selW mdW :=
  ⟨by decide, by decide, c3_cofilter_options .experiment (by decide) selW mdW (by decide)⟩

/-- C1, counterexample: at the empty (or absent) base metadata table the
facet-option computation returns an empty `cell_types` list, not the fixed
34-entry catalog the claim asserts for every metadata table. -/
theorem c1_counterexample :
    (get_filtered_options selAll []).cell_types = [] ∧ base_cell_types ≠ [] := by
  constructor
  · rfl
  · decide

/-- C1 as amended: for every selection and every NON-EMPTY base metadata
table, the `cell_type` facet's option list is exactly the fixed 34-entry
catalog `cell_type_1 … cell_type_34`, sorted ascending by the embedded
integer, regardless of every facet selection.  (When the metadata table is
empty or absent, the code returns an empty list for `cell_type` like for every
other facet.) -/
theorem c1_cell_type_catalog (sel : FilterState) (md : List MetadataRow) (hmd : md ≠ []) :
    (get_filtered_options sel md).cell_types =
      ["cell_type_1", "cell_type_2", "cell_type_3", "cell_type_4", "cell_type_5",
       "cell_type_6", "cell_type_7", "cell_type_8", "cell_type_9", "cell_type_10",
       "cell_type_11", "cell_type_12", "cell_type_13", "cell_type_14", "cell_type_15",
       "cell_type_16", "cell_type_17", "cell_type_18", "cell_type_19", "cell_type_20",
       "cell_type_21", "cell_type_22", "cell_type_23", "cell_type_24", "cell_type_25",
       "cell_type_26", "cell_type_27", "cell_type_28", "cell_type_29", "cell_type_30",
       "cell_type_31", "cell_type_32", "cell_type_33", "cell_type_34"] := by
  rw [get_filtered_options, if_neg hmd]
  show base_cell_types = _
  decide

/-- Witness for C1 (amended): the catalog equation realised at a concrete
non-empty metadata table. -/
theorem c1_cell_type_catalog_witness :
    (mdW ≠ []) ∧
      (get_filtered_options selAll mdW).cell_types =
        ["cell_type_1", "cell_type_2", "cell_type_3", "cell_type_4", "cell_type_5",
         "cell_type_6", "cell_type_7", "cell_type_8", "cell_type_9", "cell_type_10",
         "cell_type_11", "cell_type_12", "cell_type_13", "cell_type_14", "cell_type_15",
         "cell_type_16", "cell_type_17", "cell_type_18", "cell_type_19", "cell_type_20",
         "cell_type_21", "cell_type_22", "cell_type_23", "cell_type_24", "cell_type_25",
         "cell_type_26", "cell_type_27", "cell_type_28", "cell_type_29", "cell_type_30",
         "cell_type_31", "cell_type_32", "cell_type_33", "cell_type_34"] :=
  ⟨by decide, c1_cell_type_catalog selAll mdW (by decide)⟩

/-! ## Visualization generator: session colour memoisation -/

/-- The fixed 35-entry palette `self.colors` of `VisualizationGenerator.__init__`
(the literal list, duplicates included). -/
def colors : List String :=
  ["#8B0000", "#FF6B6B", "#4ECDC4", "#45B7D1", "#96CEB4",
   "#FFEAA7", "#DDA0DD", "#98D8C8", "#F7DC6F", "#BB8FCE",
   "#85C1E9", "#F8C471", "#82E0AA", "#F1948A", "#AED6F1",
   "#A9DFBF", "#F9E79F", "#D7BDE2", "#A3E4D7", "#FAD7A0",
   "#CD5C5C", "#20B2AA", "#87CEEB", "#DDA0DD", "#F0E68C",
   "#FFB6C1", "#98FB98", "#87CEFA", "#F4A460", "#DA70D6",
   "#32CD32", "#FF69B4", "#00CED1", "#FF1493", "#00FF7F"]

/-- The memoisation dictionary `self.cell_type_colors`, kept in insertion
order as Python dicts are. -/
abbrev ColorState := List (String × String)

/-- `self.colors[k % len(self.colors)]`. -/
def paletteAt (k : Nat) : String := colors.getD (k % colors.length) ""

/-- `get_cell_type_color(cell_type, index)`: look the label up in the memo;
on a miss assign `colors[len(memo) % len(colors)]` and record it.  The
`index` argument is never read by the body.  Returns the colour together with
the updated memo. -/
def get_cell_type_color (state : ColorState) (cell_type : String) (index : Nat) :
    String × ColorState :=
  match state.find? (fun p => p.1 == cell_type) with
  | some p => (p.2, state)
  | none =>
    let c := paletteAt state.length
    (c, state ++ [(cell_type, c)])

/-- A whole session of colour requests, threading the memo. -/
def runColorRequests (state : ColorState) : List (String × Nat) → ColorState
  | [] => state
  | (ct, i) :: reqs => runColorRequests (get_cell_type_color state ct i).2 reqs

/-- The canonical memo obtained by assigning palette colours to a list of
fresh labels starting at position `k`. -/
def fillFrom (k : Nat) : List String → ColorState
  | [] => []
  | n :: ns => (n, paletteAt k) :: fillFrom (k + 1) ns

theorem find?_eq_none_of_not_mem_fst (state : ColorState) (ct : String)
    (h : ct ∉ state.map Prod.fst) : state.find? (fun p => p.1 == ct) = none := by
  rw [List.find?_eq_none]
  intro p hp
  simp only [beq_iff_eq]
  intro hc
  exact h (List.mem_map.2 ⟨p, hp, hc⟩)

theorem find?_isSome_of_mem_fst (state : ColorState) (ct : String)
    (h : ct ∈ state.map Prod.fst) : (state.find? (fun p => p.1 == ct)).isSome := by
  rcases List.mem_map.1 h with ⟨p, hp, hc⟩
  exact List.find?_isSome.2 ⟨p, hp, by simp [hc]⟩

/-- Running a request list extends the memo by palette colours for the
first-seen order of the labels not already memoised. -/
theorem runColorRequests_eq (reqs : List (String × Nat)) :
    ∀ state : ColorState,
      runColorRequests state reqs =
        state ++ fillFrom state.length (dedupFirst (state.map Prod.fst) (reqs.map Prod.fst)) := by
  induction reqs with
  | nil => intro state; simp [runColorRequests, dedupFirst, fillFrom]
  | cons req reqs ih =>
    intro state
    obtain ⟨ct, i⟩ := req
    by_cases hmem : ct ∈ state.map Prod.fst
    · have hfind := find?_isSome_of_mem_fst state ct hmem
      rw [runColorRequests]
      rcases Option.isSome_iff_exists.1 hfind with ⟨p, hp⟩
      rw [show (get_cell_type_color state ct i).2 = state by rw [get_cell_type_color, hp], ih,
        List.map_cons, dedupFirst_cons_mem _ hmem]
    · have hfind := find?_eq_none_of_not_mem_fst state ct hmem
      rw [runColorRequests,
        show (get_cell_type_color state ct i).2 = state ++ [(ct, paletteAt state.length)] by
          rw [get_cell_type_color, hfind], ih, List.map_cons,
        dedupFirst_cons_not_mem _ hmem]
      rw [fillFrom, List.append_assoc]
      have hlen : (state ++ [(ct, paletteAt state.length)]).length = state.length + 1 := by
        simp
      rw [hlen]
      have hseen : dedupFirst ((state ++ [(ct, paletteAt state.length)]).map Prod.fst)
          (reqs.map Prod.fst) = dedupFirst (ct :: state.map Prod.fst) (reqs.map Prod.fst) := by
        refine dedupFirst_congr_seen _ _ _ (fun a => ?_)
        simp [or_comm]
      rw [hseen]
      rfl

/-- C10: the colour assignment is index-independent and deterministic — the
`index` argument never influences the result; a label not yet memoised gets
the palette colour at position `(number of distinct labels seen so far) mod
35` (the palette has 35 entries, so the lookup is total for any number of
distinct labels); and a whole session's memo is a function of the first-seen
order of the labels alone, so two runs presenting cell types in the same
first-seen order assign identical colours. -/
theorem c10_color_assignment :
    colors.length = 35 ∧
    (∀ (state : ColorState) (ct : String) (i j : Nat),
      get_cell_type_color state ct i = get_cell_type_color state ct j) ∧
    (∀ (state : ColorState) (ct : String) (i : Nat),
      ct ∉ state.map Prod.fst →
      (get_cell_type_color state ct i).1 = paletteAt state.length) ∧
    (∀ reqs₁ reqs₂ : List (String × Nat),
      dedupFirst [] (reqs₁.map Prod.fst) = dedupFirst [] (reqs₂.map Prod.fst) →
      runColorRequests [] reqs₁ = runColorRequests [] reqs₂) := by
  refine ⟨by decide, fun state ct i j => rfl, fun state ct i h => ?_, fun reqs₁ reqs₂ h => ?_⟩
  · rw [get_cell_type_color, find?_eq_none_of_not_mem_fst state ct h]
  · rw [runColorRequests_eq, runColorRequests_eq]
    simp only [List.nil_append, List.map_nil, List.length_nil]
    rw [h]

/-- Witness for C10: the hypotheses of the second and third conjuncts
realised at concrete inputs. -/
theorem c10_color_assignment_witness :
    (get_cell_type_color [("254_x", "#8B0000")] "17_Sub_Glut" 5).1 = paletteAt 1 ∧
      runColorRequests [] [("a", 0), ("b", 5)] =
        runColorRequests [] [("a", 7), ("a", 3), ("b", 0)] :=
  ⟨c10_color_assignment.2.2.1 [("254_x", "#8B0000")] "17_Sub_Glut" 5 (by decide),
   c10_color_assignment.2.2.2 [("a", 0), ("b", 5)] [("a", 7), ("a", 3), ("b", 0)] (by decide)⟩

/-! ## Track visualization builder (`create_peak_visualization`) -/

/-- One cleaned signal row (`peak_data` after ingestion), fully typed: the
visualisation and reconciliation code reads these columns as present and
numeric, which the primary loader's cleaning guarantees; rows with missing
cells are outside this type (see `RawSignalRow` for the pre-cleaning frame).
The source column name `end` is a Lean keyword and is rendered `end_pos`. -/
structure PeakRow where
  enhancer_id : String
  chr : String
  start : Int
  end_pos : Int
  cell_type : String
  position_index : Int
  accessibility_score : ℚ
  deriving DecidableEq, Repr

/-- One per-cell-type track of the multi-panel chart: the filled line series,
the high-accessibility diamond markers, the memoised colour, and the y-axis
range applied by `update_yaxes`. -/
structure Panel where
  cell_type : String
  color : String
  series : List (Int × ℚ)
  peak_markers : List (Int × ℚ)
  y_range : ℚ × ℚ
  deriving DecidableEq, Repr

/-- One box-plot trace of the summary dashboard: label, memoised colour, and
the score sample. -/
structure BoxTrace where
  cell_type : String
  color : String
  scores : List ℚ
  deriving DecidableEq, Repr

/-- The structural content of a plotly figure returned by the builders. -/
inductive Figure where
  | emptyPlot (message : String) (height : Nat)
  | tracks (enhancer_id : String) (chr : String) (start : Int) (end_pos : Int)
      (panels : List Panel) (height : Nat)
  | heatmap (cells : List ((String × String) × ℚ)) (height : Nat)
  | dashboard (boxPanels : List BoxTrace) (enhancerCounts : List (String × Nat))
      (topMeans : List (String × ℚ)) (lengthScatter : List (String × Int × ℚ)) (height : Nat)
  | hbar (cell_type : String) (bars : List (String × ℚ))
      (customdata : List (String × ℚ × Nat × Int)) (height : Nat)
  deriving DecidableEq, Repr

/-- `create_empty_plot(message)`: a placeholder chart carrying an explanatory
message, with fixed height 300. -/
def create_empty_plot (message : String) : Figure := Figure.emptyPlot message 300

/-- `cell_data.sort_values('position_index')` (stable ascending sort). -/
def posLe (a b : PeakRow) : Prop := a.position_index ≤ b.position_index

instance : DecidableRel posLe := fun a b => Int.decLe _ _

/-- Pandas `Series.max` (its value on the empty series is unused by the
program: the call sites are guarded by emptiness checks). -/
def listMax : List ℚ → ℚ
  | [] => 0
  | a :: as => as.foldl max a

/-- Pandas `Series.quantile(0.8)` with the default linear interpolation,
exactly in ℚ. -/
def quantile80 (scores : List ℚ) : ℚ :=
  match List.insertionSort (fun a b : ℚ => a ≤ b) scores with
  | [] => 0
  | s =>
    let h : ℚ := (4 : ℚ) * ((s.length : ℚ) - 1) / 5
    let lo := Int.toNat ⌊h⌋
    let hi := Int.toNat ⌈h⌉
    s.getD lo 0 + (h - ⌊h⌋) * (s.getD hi 0 - s.getD lo 0)

/-- The loop body of `create_peak_visualization`'s per-cell-type loop
(`for i, cell_type in enumerate(cell_types, 1)`), threading the accumulated
panel list and the colour memo.  A cell type whose slice of the data is empty
adds no traces (`if not cell_data.empty`). -/
def panelStep (rows : List PeakRow) (acc : List Panel × ColorState) (p : Nat × String) :
    List Panel × ColorState :=
  let (i, ct) := p
  match rows.filter (fun r => r.cell_type == ct) with
  | [] => acc
  | cd0 :: cdrest =>
    let cell_data := List.insertionSort posLe (cd0 :: cdrest)
    let cs := get_cell_type_color acc.2 ct i
    let series := cell_data.map (fun r => (r.position_index, r.accessibility_score))
    let q := quantile80 (cell_data.map PeakRow.accessibility_score)
    let markers := (cell_data.filter (fun r => q < r.accessibility_score)).map
      (fun r => (r.position_index, r.accessibility_score))
    (acc.1 ++ [{ cell_type := ct, color := cs.1, series := series,
                 peak_markers := markers, y_range := (0, 0) }], cs.2)

/-- `VisualizationGenerator.create_peak_visualization(peak_data, enhancer_id)`.
Empty data yields the placeholder chart; otherwise one panel per cell type
(cell types sorted by `extract_cell_type_number`), then `update_yaxes` applies
the identical range `[0, 1.1 * global max]` to every panel and the layout sets
`height = max(500, n * 120)`.  The y-range of a freshly built panel models
plotly's pre-`update_yaxes` default autoscale as `(0, 0)` before the update
pass overwrites it.  The colour memo is threaded in and out. -/
def create_peak_visualization (state : ColorState) (peak_data : List PeakRow)
    (enhancer_id : String) : Figure × ColorState :=
  match peak_data with
  | [] => (create_empty_plot "No peak data available for visualization", state)
  | first :: rest =>
    let rows := first :: rest
    let cell_types := List.insertionSort ctKeyLe (dedupFirst [] (rows.map PeakRow.cell_type))
    let num_cell_types := cell_types.length
    if num_cell_types = 0 then (create_empty_plot "No cell types found in data", state)
    else
      let build := cell_types.enum.foldl (panelStep rows) ([], state)
      let global_max_score := listMax (rows.map PeakRow.accessibility_score)
      let y_max := global_max_score * (1.1 : ℚ)
      let plot_height := max 500 (num_cell_types * 120)
      let panels := build.1.map (fun p => { p with y_range := ((0 : ℚ), y_max) })
      (Figure.tracks enhancer_id first.chr first.start first.end_pos panels plot_height, build.2)

/-- The y-axis ranges of the panels of a figure (empty for non-track figures). -/
def Figure.panelYRanges : Figure → List (ℚ × ℚ)
  | .tracks _ _ _ _ panels _ => panels.map Panel.y_range
  | _ => []

/-- The cell-type labels of the panels of a figure, in panel order. -/
def Figure.panelCellTypes : Figure → List String
  | .tracks _ _ _ _ panels _ => panels.map Panel.cell_type
  | _ => []

theorem foldl_max_init_le : ∀ (as : List ℚ) (a : ℚ), a ≤ as.foldl max a := by
  intro as
  induction as with
  | nil => intro a; exact le_refl a
  | cons b bs ih =>
    intro a
    rw [List.foldl_cons]
    exact le_trans (le_max_left a b) (ih (max a b))

theorem foldl_max_is_ub : ∀ (as : List ℚ) (a x : ℚ), x ∈ a :: as → x ≤ as.foldl max a := by
  intro as
  induction as with
  | nil =>
    intro a x hx
    rcases List.mem_cons.1 hx with rfl | h
    · exact le_refl x
    · cases h
  | cons b bs ih =>
    intro a x hx
    rw [List.foldl_cons]
    rcases List.mem_cons.1 hx with rfl | hx
    · exact le_trans (le_max_left x b) (foldl_max_init_le bs _)
    · rcases List.mem_cons.1 hx with rfl | hx
      · exact le_trans (le_max_right a x) (foldl_max_init_le bs _)
      · exact ih (max a b) x (List.mem_cons_of_mem _ hx)

theorem foldl_max_mem : ∀ (as : List ℚ) (a : ℚ), as.foldl max a ∈ a :: as := by
  intro as
  induction as with
  | nil => intro a; exact List.mem_cons_self _ _
  | cons b bs ih =>
    intro a
    rw [List.foldl_cons]
    rcases List.mem_cons.1 (ih (max a b)) with h | h
    · rcases max_choice a b with hm | hm
      · rw [h, hm]; exact List.mem_cons_self _ _
      · rw [h, hm]; exact List.mem_cons_of_mem _ (List.mem_cons_self _ _)
    · exact List.mem_cons_of_mem _ (List.mem_cons_of_mem _ h)

/-- `listMax` really is the maximum: an upper bound that is attained. -/
theorem listMax_spec (l : List ℚ) (hl : l ≠ []) :
    listMax l ∈ l ∧ ∀ x ∈ l, x ≤ listMax l := by
  match l with
  | [] => exact absurd rfl hl
  | a :: as =>
    rw [listMax]
    exact ⟨foldl_max_mem as a, fun x hx => foldl_max_is_ub as a x hx⟩

theorem panelStep_fst (rows : List PeakRow) (acc : List Panel × ColorState)
    (e : Nat × String) : ∃ s, (panelStep rows acc e).1 = acc.1 ++ s := by
  obtain ⟨i, ct⟩ := e
  cases hf : rows.filter (fun r => r.cell_type == ct) with
  | nil => exact ⟨[], by simp only [panelStep, hf]; rw [List.append_nil]⟩
  | cons c cs =>
    refine ⟨[{ cell_type := ct, color := (get_cell_type_color acc.2 ct i).1,
               series := (List.insertionSort posLe (c :: cs)).map
                 (fun r => (r.position_index, r.accessibility_score)),
               peak_markers := ((List.insertionSort posLe (c :: cs)).filter
                   (fun r => decide (quantile80 ((List.insertionSort posLe (c :: cs)).map
                     PeakRow.accessibility_score) < r.accessibility_score))).map
                 (fun r => (r.position_index, r.accessibility_score)),
               y_range := ((0 : ℚ), (0 : ℚ)) }], ?_⟩
    simp only [panelStep, hf]

theorem foldl_panelStep_prefix (rows : List PeakRow) :
    ∀ (l : List (Nat × String)) (acc : List Panel × ColorState),
      ∃ t, (l.foldl (panelStep rows) acc).1 = acc.1 ++ t := by
  intro l
  induction l with
  | nil => intro acc; exact ⟨[], (List.append_nil _).symm⟩
  | cons e l ih =>
    intro acc
    rw [List.foldl_cons]
    rcases ih (panelStep rows acc e) with ⟨t, ht⟩
    rcases panelStep_fst rows acc e with ⟨s, hs⟩
    exact ⟨s ++ t, by rw [ht, hs, List.append_assoc]⟩

theorem panelStep_fst_ne_nil (rows : List PeakRow) (acc : List Panel × ColorState)
    (i : Nat) (ct : String) (hct : rows.filter (fun r => r.cell_type == ct) ≠ []) :
    (panelStep rows acc (i, ct)).1 ≠ [] := by
  cases hf : rows.filter (fun r => r.cell_type == ct) with
  | nil => exact absurd hf hct
  | cons c cs =>
    simp only [panelStep, hf]
    simp

/-- The sorted cell-type list of a non-empty data frame is non-empty. -/
theorem cellTypes_ne_nil (first : PeakRow) (rest : List PeakRow) :
    List.insertionSort ctKeyLe (dedupFirst [] ((first :: rest).map PeakRow.cell_type)) ≠ [] := by
  intro h
  have hperm := List.perm_insertionSort ctKeyLe
    (dedupFirst [] ((first :: rest).map PeakRow.cell_type))
  rw [h] at hperm
  exact dedupFirst_nil_ne_nil _ (by simp) (List.Perm.nil_eq hperm).symm

/-- Every label in the sorted cell-type list has a non-empty data slice. -/
theorem cellTypes_mem_filter_ne_nil (rows : List PeakRow) (ct : String)
    (h : ct ∈ List.insertionSort ctKeyLe (dedupFirst [] (rows.map PeakRow.cell_type))) :
    rows.filter (fun r => r.cell_type == ct) ≠ [] := by
  have h1 : ct ∈ dedupFirst [] (rows.map PeakRow.cell_type) :=
    (List.perm_insertionSort ctKeyLe _).mem_iff.1 h
  have h2 : ct ∈ rows.map PeakRow.cell_type := ((mem_dedupFirst _ _ _).1 h1).1
  rcases List.mem_map.1 h2 with ⟨r, hr, hct⟩
  exact List.ne_nil_of_mem (List.mem_filter.2 ⟨hr, by simp [hct]⟩)

/-- The cell types of the accumulated panels: one entry per enumerated cell
type whose data slice is non-empty, in iteration order. -/
theorem foldl_panelStep_cellTypes (rows : List PeakRow) :
    ∀ (l : List (Nat × String)) (acc : List Panel × ColorState),
      (l.foldl (panelStep rows) acc).1.map Panel.cell_type =
        acc.1.map Panel.cell_type ++
          (l.filter (fun p =>
            !(rows.filter (fun r => r.cell_type == p.2)).isEmpty)).map Prod.snd := by
  intro l
  induction l with
  | nil => intro acc; simp
  | cons e l ih =>
    intro acc
    obtain ⟨i, ct⟩ := e
    rw [List.foldl_cons, ih]
    cases hf : rows.filter (fun r => r.cell_type == ct) with
    | nil =>
      have hstep : panelStep rows acc (i, ct) = acc := by
        simp only [panelStep, hf]
      rw [hstep]
      simp [List.filter_cons, hf]
    | cons c cs =>
      have hstep : (panelStep rows acc (i, ct)).1.map Panel.cell_type =
          acc.1.map Panel.cell_type ++ [ct] := by
        simp only [panelStep, hf]
        simp
      rw [hstep]
      simp [List.filter_cons, hf, List.append_assoc]

/-- C2: for every colour-memo state and every non-empty table of signal rows
for one enhancer, the track builder applies the identical y-axis range
`[0, 1.1 * M]` to every cell-type panel, where `M` is the maximum
`accessibility_score` over ALL rows of the input (a single global maximum, not
a per-panel one) — and there is at least one panel. -/
theorem c2_uniform_y_scaling (state : ColorState) (rows : List PeakRow) (eid : String)
    (h : rows ≠ []) :
    (create_peak_visualization state rows eid).1.panelYRanges ≠ [] ∧
    ∀ yr ∈ (create_peak_visualization state rows eid).1.panelYRanges,
      yr = ((0 : ℚ), (1.1 : ℚ) * listMax (rows.map PeakRow.accessibility_score)) := by
  obtain ⟨first, rest, rfl⟩ : ∃ f r, rows = f :: r := by
    cases rows with
    | nil => exact absurd rfl h
    | cons f r => exact ⟨f, r, rfl⟩
  rw [create_peak_visualization]
  have hnum : ¬ (List.insertionSort ctKeyLe
      (dedupFirst [] ((first :: rest).map PeakRow.cell_type))).length = 0 := by
    simpa [List.length_eq_zero] using cellTypes_ne_nil first rest
  rw [if_neg hnum]
  constructor
  · cases hct : List.insertionSort ctKeyLe
        (dedupFirst [] ((first :: rest).map PeakRow.cell_type)) with
    | nil => exact absurd hct (cellTypes_ne_nil first rest)
    | cons ct0 cts =>
      simp only [Figure.panelYRanges, hct, List.enum_cons, List.foldl_cons]
      rcases foldl_panelStep_prefix (first :: rest) (cts.enumFrom 1)
        (panelStep (first :: rest) ([], state) (0, ct0)) with ⟨t, ht⟩
      rw [ht]
      have hne := panelStep_fst_ne_nil (first :: rest) ([], state) 0 ct0
        (cellTypes_mem_filter_ne_nil (first :: rest) ct0
          (by rw [hct]; exact List.mem_cons_self _ _))
      intro hcontra
      rw [List.map_eq_nil, List.map_eq_nil, List.append_eq_nil] at hcontra
      exact hne hcontra.1
  · intro yr hyr
    simp only [Figure.panelYRanges, List.map_map, List.mem_map] at hyr
    rcases hyr with ⟨p, hp, rfl⟩
    simp [mul_comm]

theorem map_cellType_update (L : List Panel) (y : ℚ × ℚ) :
    (L.map (fun p => { p with y_range := y })).map Panel.cell_type = L.map Panel.cell_type := by
  induction L with
  | nil => rfl
  | cons p L ih => simp [ih]

/-- Two rows of one enhancer whose cell-type labels are `1000_A` (leading
digits 1000) and `Z` (no leading digits, fallback key 999). -/
def rowsC4 : List PeakRow :=
  [ { enhancer_id := "E1", chr := "chr1", start := 10, end_pos := 20,
      cell_type := "1000_A", position_index := 1, accessibility_score := 1 }
  , { enhancer_id := "E1", chr := "chr1", start := 10, end_pos := 20,
      cell_type := "Z", position_index := 2, accessibility_score := 2 } ]

/-- C4, counterexample: the non-digit label `Z` gets the fallback sort key
999, NOT plus-infinity, so it sorts BEFORE the numerically-prefixed label
`1000_A` (key 1000) — the claim requires every numerically-prefixed label to
precede every non-digit label. -/
theorem c4_counterexample :
    (create_peak_visualization [] rowsC4 "E1").1.panelCellTypes = ["Z", "1000_A"] ∧
      (create_peak_visualization [] rowsC4 "E1").1.panelCellTypes ≠ ["1000_A", "Z"] := by
  constructor
  · decide
  · decide

/-- The example signal of the claim: enhancer `E1` with cell types
`2_X` and `1_Y`. -/
def rowsExample1 : List PeakRow :=
  [ { enhancer_id := "E1", chr := "chr1", start := 10, end_pos := 20,
      cell_type := "2_X", position_index := 1, accessibility_score := 1 }
  , { enhancer_id := "E1", chr := "chr1", start := 10, end_pos := 20,
      cell_type := "1_Y", position_index := 2, accessibility_score := 2 } ]

/-- C4 as amended: panels are ordered ascending by the integer formed by the
leading run of ASCII digits of each cell-type label, where a label with no
leading digits gets the finite fallback key 999 (so it sorts after labels
with leading integer below 999 but before labels with leading integer above
999); in particular for cell types `["2_X","1_Y"]` the panel order is `1_Y`
then `2_X`. -/
theorem c4_panel_order :
    (∀ (state : ColorState) (rows : List PeakRow) (eid : String),
      List.Sorted ctKeyLe ((create_peak_visualization state rows eid).1.panelCellTypes)) ∧
    (create_peak_visualization [] rowsExample1 "E1").1.panelCellTypes = ["1_Y", "2_X"] := by
  constructor
  · intro state rows eid
    cases rows with
    | nil => exact List.sorted_nil
    | cons first rest =>
      rw [create_peak_visualization]
      have hnum : ¬ (List.insertionSort ctKeyLe
          (dedupFirst [] ((first :: rest).map PeakRow.cell_type))).length = 0 := by
        simpa [List.length_eq_zero] using cellTypes_ne_nil first rest
      rw [if_neg hnum]
      simp only [Figure.panelCellTypes]
      rw [map_cellType_update, foldl_panelStep_cellTypes]
      simp only [List.map_nil, List.nil_append]
      have hsub : List.Sublist
          (((List.insertionSort ctKeyLe
              (dedupFirst [] ((first :: rest).map PeakRow.cell_type))).enum.filter
            (fun p => !((first :: rest).filter (fun r => r.cell_type == p.2)).isEmpty)).map
              Prod.snd)
          ((List.insertionSort ctKeyLe
            (dedupFirst [] ((first :: rest).map PeakRow.cell_type))).enum.map Prod.snd) :=
        (List.filter_sublist _).map _
      rw [List.enum_map_snd] at hsub
      exact (List.sorted_insertionSort ctKeyLe _).sublist hsub
  · decide

/-- Witness for C2: the uniform scaling realised on the claim's example rows. -/
theorem c2_uniform_y_scaling_witness :
    (rowsExample1 ≠ []) ∧
      ((create_peak_visualization [] rowsExample1 "E1").1.panelYRanges ≠ [] ∧
        ∀ yr ∈ (create_peak_visualization [] rowsExample1 "E1").1.panelYRanges,
          yr = ((0 : ℚ), (1.1 : ℚ) * listMax (rowsExample1.map PeakRow.accessibility_score))) :=
  ⟨by decide, c2_uniform_y_scaling [] rowsExample1 "E1" (by decide)⟩

/-! ## Aggregate visualisation builders -/

/-- Pandas `Series.mean` (call sites are guarded against empty groups). -/
def seriesMean (l : List ℚ) : ℚ := l.sum / (l.length : ℚ)

/-- Lexicographic order on `(enhancer_id, cell_type)` pairs, the order pandas
uses for a two-key `groupby`. -/
def pairLe (a b : String × String) : Prop :=
  if a.1 = b.1 then pyStrLe a.2 b.2 else pyStrLe a.1 b.1

instance : DecidableRel pairLe := fun a b => by
  unfold pairLe
  split
  · exact instDecidableEqBool _ _
  · exact instDecidableEqBool _ _

/-- `groupby(['enhancer_id','cell_type'])['accessibility_score'].mean()`:
pandas sorts the group keys ascending. -/
def groupbyMeanPairs (rows : List PeakRow) : List ((String × String) × ℚ) :=
  (List.insertionSort pairLe
      (dedupFirst [] (rows.map (fun r => (r.enhancer_id, r.cell_type))))).map
    (fun k => (k, seriesMean
      ((rows.filter (fun r => (r.enhancer_id, r.cell_type) == k)).map
        PeakRow.accessibility_score)))

/-- `VisualizationGenerator.create_multi_enhancer_comparison(peak_data,
enhancer_ids)`: placeholder on empty data or empty id list, otherwise the
mean-accessibility heatmap pivoted cell type × enhancer, with height
`max(400, number of pivot rows * 25)`. -/
def create_multi_enhancer_comparison (peak_data : List PeakRow)
    (enhancer_ids : List String) : Figure :=
  if peak_data = [] ∨ enhancer_ids = [] then
    create_empty_plot "No data available for comparison"
  else
    let comparison_data :=
      groupbyMeanPairs (peak_data.filter (fun r => enhancer_ids.contains r.enhancer_id))
    if comparison_data = [] then create_empty_plot "No data found for selected enhancers"
    else
      let pivot_index := dedupFirst [] (comparison_data.map (fun c => c.1.2))
      Figure.heatmap comparison_data (max 400 (pivot_index.length * 25))

/-- `Series.value_counts()`: counts per distinct value, sorted descending by
count; pandas leaves the relative order of equal counts unspecified, modelled
here as first-occurrence order (the sort is stable). -/
def valueCounts (l : List String) : List (String × Nat) :=
  List.insertionSort (fun a b : String × Nat => b.2 ≤ a.2)
    ((dedupFirst [] l).map (fun k => (k, l.count k)))

/-- `VisualizationGenerator.create_summary_dashboard(peak_data)`: placeholder
on empty input; otherwise the four sub-charts — box plots of the 15 most
frequent cell types (coloured through the session memo), distinct-enhancer
counts for the first 15 cell types (group keys ascending), the 20 largest
per-enhancer mean accessibilities (descending, ties by ascending enhancer
id), and the length-versus-mean scatter — at fixed height 800. -/
def create_summary_dashboard (state : ColorState) (peak_data : List PeakRow) :
    Figure × ColorState :=
  if peak_data = [] then (create_empty_plot "No peak data available for summary", state)
  else
    let top_cell_types := ((valueCounts (peak_data.map PeakRow.cell_type)).take 15).map Prod.fst
    let boxes := top_cell_types.enum.foldl
      (fun (acc : List BoxTrace × ColorState) (p : Nat × String) =>
        let cs := get_cell_type_color acc.2 p.2 p.1
        (acc.1 ++ [{ cell_type := p.2, color := cs.1,
                     scores := ((peak_data.filter (fun r => top_cell_types.contains r.cell_type)).filter
                       (fun r => r.cell_type == p.2)).map PeakRow.accessibility_score }], cs.2))
      ([], state)
    let cell_type_counts :=
      ((List.insertionSort pyStrLe (dedupFirst [] (peak_data.map PeakRow.cell_type))).map
        (fun ct => (ct, (dedupFirst []
          ((peak_data.filter (fun r => r.cell_type == ct)).map PeakRow.enhancer_id)).length))).take 15
    let mean_acc :=
      (List.insertionSort (fun a b : String × ℚ => b.2 ≤ a.2)
        ((List.insertionSort pyStrLe (dedupFirst [] (peak_data.map PeakRow.enhancer_id))).map
          (fun eid => (eid, seriesMean
            ((peak_data.filter (fun r => r.enhancer_id == eid)).map
              PeakRow.accessibility_score))))).take 20
    let genomic_info :=
      (List.insertionSort pyStrLe (dedupFirst [] (peak_data.map PeakRow.enhancer_id))).map
        (fun eid =>
          let grp := peak_data.filter (fun r => r.enhancer_id == eid)
          (eid, (grp.map PeakRow.end_pos).headD 0 - (grp.map PeakRow.start).headD 0,
            seriesMean (grp.map PeakRow.accessibility_score)))
    (Figure.dashboard boxes.1 cell_type_counts mean_acc genomic_info 800, boxes.2)

/-- `VisualizationGenerator.create_cell_type_specific_view(peak_data,
cell_type)`: placeholder when the cell-type slice is empty; otherwise the
horizontal ranking bar chart of per-enhancer mean accessibility, sorted
ascending by mean (group keys ascending before the stable sort), annotated
with max, sample count and enhancer length (the hover's standard deviation is
a floating-point square root and is not modelled), height
`max(400, rows * 25)`. -/
def create_cell_type_specific_view (peak_data : List PeakRow) (cell_type : String) :
    Figure :=
  let cell_data := peak_data.filter (fun r => r.cell_type == cell_type)
  if cell_data = [] then
    create_empty_plot ("No data available for cell type: " ++ cell_type)
  else
    let enhancer_stats :=
      (List.insertionSort pyStrLe (dedupFirst [] (cell_data.map PeakRow.enhancer_id))).map
        (fun eid =>
          let grp := cell_data.filter (fun r => r.enhancer_id == eid)
          let scores := grp.map PeakRow.accessibility_score
          (eid, seriesMean scores, listMax scores, grp.length,
            (grp.map PeakRow.end_pos).headD 0 - (grp.map PeakRow.start).headD 0))
    let sorted_stats := List.insertionSort
      (fun a b : String × ℚ × ℚ × Nat × Int => a.2.1 ≤ b.2.1) enhancer_stats
    Figure.hbar cell_type (sorted_stats.map (fun st => (st.1, st.2.1)))
      (sorted_stats.map (fun st => (st.1, st.2.2.1, st.2.2.2.1, st.2.2.2.2)))
      (max 400 (sorted_stats.length * 25))

/-- C9: every visualization builder — the single-enhancer track plot and the
three aggregate artifacts — returns the placeholder chart carrying its
explanatory message on an empty input table; as total Lean functions none of
them can raise on absence of data. -/
theorem c9_empty_input_placeholders :
    (∀ (state : ColorState) (eid : String),
      create_peak_visualization state [] eid =
        (create_empty_plot "No peak data available for visualization", state)) ∧
    (∀ ids : List String,
      create_multi_enhancer_comparison [] ids =
        create_empty_plot "No data available for comparison") ∧
    (∀ state : ColorState,
      create_summary_dashboard state [] =
        (create_empty_plot "No peak data available for summary", state)) ∧
    (∀ ct : String,
      create_cell_type_specific_view [] ct =
        create_empty_plot ("No data available for cell type: " ++ ct)) := by
  refine ⟨fun state eid => rfl, fun ids => ?_, fun state => rfl, fun ct => rfl⟩
  rw [create_multi_enhancer_comparison, if_pos (Or.inl rfl)]

/-! ## Tabular ingestion -/

/-- A raw signal row as read by `pd.read_csv`, after the
`pd.to_numeric(..., errors='coerce')` pass: a cell is `none` when it was
missing in the file or failed numeric coercion.  The embedding covers the
schema-complete frame; when a required column is absent entirely, the
loader's own `dropna(subset=...)` raises a `KeyError` and the enclosing
handler returns an empty frame, so every returned row still satisfies the
theorems below. -/
structure RawSignalRow where
  enhancer_id : Option String
  chr : Option String
  start : Option ℚ
  end_pos : Option ℚ
  cell_type : Option String
  position_index : Option ℚ
  accessibility_score : Option ℚ
  deriving DecidableEq, Repr

/-- `DataProcessor.load_peak_data` (CSV loader): drop rows missing
`enhancer_id` or `accessibility_score`; coerce the numeric columns (folded
into the `Option` typing); drop rows with a missing coerced numeric; drop
rows with `start >= end` (the pandas comparison is `False` on missing values,
which cannot occur after the preceding `dropna`). -/
def load_peak_data (df : List RawSignalRow) : List RawSignalRow :=
  let df1 := df.filter (fun r => r.enhancer_id.isSome && r.accessibility_score.isSome)
  let df2 := df1.filter (fun r =>
    r.start.isSome && r.end_pos.isSome && r.position_index.isSome &&
      r.accessibility_score.isSome)
  df2.filter (fun r =>
    !(match r.start, r.end_pos with
      | some s, some e => decide (s ≥ e)
      | _, _ => false))

/-- The chunked loader `DataProcessor.load_peak_data` (of
`data_processor_chunked`): concatenate every discovered chunk frame (the glob
patterns and the per-pattern lexicographic filename sort fix the
concatenation order), return `None` when no chunk file was found, otherwise
drop exact-duplicate rows over the full combined table (`drop_duplicates`
keeps first occurrences) and report the removed-row count, which the code
prints as a diagnostic when positive.  No coercion and no coordinate
filtering happens on this path.  `drop_duplicates` is schema-generic, so the
frame's row type is a parameter. -/
def load_peak_data_chunked [DecidableEq α] (all_chunks : List (List α)) :
    Option (List α × Nat) :=
  if all_chunks = [] then none
  else
    let combined_df := all_chunks.join
    let deduped := dedupFirst [] combined_df
    some (deduped, combined_df.length - deduped.length)

/-- C5 as amended: every signal row surviving the CSV loader's cleaning has
`start < end`; the chunked loader performs no coordinate cleaning (see the
counterexample), so the invariant holds only for the primary loader. -/
theorem c5_coordinate_invariant (df : List RawSignalRow) (r : RawSignalRow)
    (hr : r ∈ load_peak_data df) :
    ∃ s e : ℚ, r.start = some s ∧ r.end_pos = some e ∧ s < e := by
  simp only [load_peak_data] at hr
  rcases List.mem_filter.1 hr with ⟨hr2, hp3⟩
  rcases List.mem_filter.1 hr2 with ⟨hr1, hp2⟩
  have hs : r.start.isSome := by
    rcases Bool.and_eq_true_iff.1 hp2 with ⟨h, _⟩
    rcases Bool.and_eq_true_iff.1 h with ⟨h, _⟩
    rcases Bool.and_eq_true_iff.1 h with ⟨h, _⟩
    exact h
  have he : r.end_pos.isSome := by
    rcases Bool.and_eq_true_iff.1 hp2 with ⟨h, _⟩
    rcases Bool.and_eq_true_iff.1 h with ⟨h, _⟩
    rcases Bool.and_eq_true_iff.1 h with ⟨_, h⟩
    exact h
  rcases Option.isSome_iff_exists.1 hs with ⟨s, hs⟩
  rcases Option.isSome_iff_exists.1 he with ⟨e, he⟩
  refine ⟨s, e, hs, he, ?_⟩
  rw [hs, he] at hp3
  simp only [Bool.not_eq_true'] at hp3
  exact lt_of_not_ge (by simpa using hp3)

/-- A raw row whose coordinates are inverted (`start = 9 > end = 5`). -/
def invertedRow : RawSignalRow :=
  { enhancer_id := some "E1", chr := some "chr1", start := some 9, end_pos := some 5,
    cell_type := some "1_A", position_index := some 0, accessibility_score := some 1 }

/-- C5, counterexample: the chunked ingestion path returns the inverted-
coordinate row unchanged — it only deduplicates, so a surviving signal row
need not satisfy `start < end`. -/
theorem c5_counterexample :
    load_peak_data_chunked [[invertedRow]] = some ([invertedRow], 0) ∧
      invertedRow.start = some 9 ∧ invertedRow.end_pos = some 5 ∧ ¬ ((9 : ℚ) < 5) := by
  refine ⟨by decide, rfl, rfl, by decide⟩

/-- Witness for C5 (amended): a concrete two-row frame in which the good row
survives and the theorem yields its coordinates. -/
def goodRow : RawSignalRow :=
  { enhancer_id := some "E1", chr := some "chr1", start := some 5, end_pos := some 9,
    cell_type := some "1_A", position_index := some 0, accessibility_score := some 1 }

theorem c5_coordinate_invariant_witness :
    (goodRow ∈ load_peak_data [goodRow, invertedRow]) ∧
      (∃ s e : ℚ, goodRow.start = some s ∧ goodRow.end_pos = some e ∧ s < e) :=
  ⟨by decide, c5_coordinate_invariant [goodRow, invertedRow] goodRow (by decide)⟩

theorem dedupFirst_eq_nil_of_subset [DecidableEq α] (seen : List α) (l : List α)
    (h : ∀ a ∈ l, a ∈ seen) : dedupFirst seen l = [] := by
  induction l with
  | nil => rfl
  | cons b l ih =>
    rw [dedupFirst_cons_mem l (h b (List.mem_cons_self _ _))]
    exact ih (fun a ha => h a (List.mem_cons_of_mem _ ha))

theorem dedupFirst_replicate [DecidableEq α] (k : Nat) (hk : 1 ≤ k) (r : α) :
    dedupFirst [] (List.replicate k r) = [r] := by
  obtain ⟨m, rfl⟩ : ∃ m, k = m + 1 := ⟨k - 1, by omega⟩
  rw [List.replicate_succ, dedupFirst_cons_not_mem _ (List.not_mem_nil r),
    dedupFirst_eq_nil_of_subset [r] _
      (fun a ha => by rw [List.eq_of_mem_replicate ha]; exact List.mem_cons_self _ _)]

/-- C6: when the combined table consists of 1000 exactly identical rows
spread over two partition files, ingestion keeps exactly one of them and the
diagnostic count of removed duplicates is 999 (positive, so the
`Removed ... duplicate rows` message is printed). -/
theorem c6_duplicate_removal (r : PeakRow) (n₁ n₂ : Nat) (h₁ : 1 ≤ n₁) (h₂ : 1 ≤ n₂)
    (hsum : n₁ + n₂ = 1000) :
    load_peak_data_chunked [List.replicate n₁ r, List.replicate n₂ r] =
      some ([r], 999) := by
  rw [load_peak_data_chunked, if_neg (by simp)]
  have hjoin : ([List.replicate n₁ r, List.replicate n₂ r] : List (List PeakRow)).join =
      List.replicate 1000 r := by
    have : ([List.replicate n₁ r, List.replicate n₂ r] : List (List PeakRow)).join =
        List.replicate n₁ r ++ List.replicate n₂ r := by simp
    rw [this, ← List.replicate_add, hsum]
  simp only [hjoin, dedupFirst_replicate 1000 (by omega) r, List.length_replicate,
    List.length_cons, List.length_nil]

/-- A concrete signal row used for the C6 witness. -/
def dupRow : PeakRow :=
  { enhancer_id := "E1", chr := "chr1", start := 10, end_pos := 20,
    cell_type := "1_A", position_index := 0, accessibility_score := 1 }

theorem c6_duplicate_removal_witness :
    (1 ≤ 500) ∧ (500 + 500 = 1000) ∧
      load_peak_data_chunked [List.replicate 500 dupRow, List.replicate 500 dupRow] =
        some ([dupRow], 999) :=
  ⟨by decide, by decide, c6_duplicate_removal dupRow 500 500 (by decide) (by decide) (by decide)⟩

/-! ## Dataset reconciler (`extract_hof_enhancers`) -/

/-- One row of the reconciled Hall-of-Fame table of the primary processor.
The two construction branches contribute different column sets and
`pd.concat` fills the gaps with NaN, so every non-key column is optional.
Imaging-link columns other than `neuroglancer_url` are omitted along with
their source columns (see `MetadataRow`). -/
structure HofRow where
  enhancer_id : String
  cargo : Option String
  experiment : Option String
  cell_type : Option String
  proximal_gene : Option String
  gc_delivered : Option String
  neuroglancer_url : Option String
  chromosome : Option String
  start_position : Option Int
  end_position : Option Int
  length_bp : Option Int
  mean_accessibility : Option ℚ
  max_accessibility : Option ℚ
  num_cell_types : Option Nat
  total_data_points : Option Nat
  deriving DecidableEq, Repr

/-- A retained metadata row carried into the concatenated Hall-of-Fame frame
(columns the metadata table lacks become NaN; its `enhancer_id` is non-null
by the preceding `isin` filter). -/
def hofRowOfMetadata (m : MetadataRow) : HofRow :=
  { enhancer_id := m.enhancer_id.getD "", cargo := m.cargo, experiment := m.experiment,
    cell_type := none, proximal_gene := m.proximal_gene, gc_delivered := m.gc_delivered,
    neuroglancer_url := none, chromosome := none, start_position := none,
    end_position := none, length_bp := none, mean_accessibility := none,
    max_accessibility := none, num_cell_types := none, total_data_points := none }

/-- The placeholder entry synthesised for a Hall-of-Fame enhancer missing
from a non-empty metadata table; `k` is the number of distinct cell types in
its signal rows. -/
def placeholderRow (eid : String) (k : Nat) : HofRow :=
  { enhancer_id := eid, cargo := some "Not specified", experiment := some "Not specified",
    cell_type := some (toString k ++ " cell types"), proximal_gene := some "Not specified",
    gc_delivered := none, neuroglancer_url := some "", chromosome := none,
    start_position := none, end_position := none, length_bp := none,
    mean_accessibility := none, max_accessibility := none, num_cell_types := none,
    total_data_points := none }

/-- The signal-derived row built when the metadata table is entirely absent
(empty): basic coordinates from the first signal row, summary statistics over
the enhancer's rows.  The mean and max are displayed rounded to six decimals;
the decimal rounding of the float display is not modelled. -/
def signalDerivedRow (eid : String) (first : PeakRow) (enhancer_peaks : List PeakRow) :
    HofRow :=
  let cell_types := dedupFirst [] (enhancer_peaks.map PeakRow.cell_type)
  let scores := enhancer_peaks.map PeakRow.accessibility_score
  { enhancer_id := eid, cargo := some "Not specified",
    experiment := some "Hall of Fame Collection",
    cell_type := some (toString cell_types.length ++ " cell types analyzed"),
    proximal_gene := some "Not specified", gc_delivered := none,
    neuroglancer_url := some "", chromosome := some first.chr,
    start_position := some first.start, end_position := some first.end_pos,
    length_bp := some (first.end_pos - first.start),
    mean_accessibility := some (seriesMean scores),
    max_accessibility := some (listMax scores),
    num_cell_types := some cell_types.length,
    total_data_points := some enhancer_peaks.length }

/-- Ordering of the final `sort_values('enhancer_id')`. -/
def hofLe (a b : HofRow) : Prop := pyStrLe a.enhancer_id b.enhancer_id

instance : DecidableRel hofLe := fun a b => instDecidableEqBool _ _

instance : IsTotal HofRow hofLe := ⟨fun a b => listCharLeB_total _ _⟩

instance : IsTrans HofRow hofLe := ⟨fun _ _ _ => listCharLeB_trans _ _ _⟩

/-- `DataProcessor.extract_hof_enhancers(metadata_df, peak_data)` of the
primary processor.  The canonical ids are the distinct signal enhancer ids in
first-occurrence order; with a non-empty metadata table (the source's second
conjunct, presence of the `enhancer_id` column, is vacuous in the typed
embedding) the metadata rows for those ids are kept and every id without
metadata gets a placeholder row (Python iterates the `set` difference in an
unspecified order — immaterial because the placeholder ids are pairwise
distinct and the final sort fixes the order); with no metadata every id gets
a signal-derived row.  The result is sorted ascending by `enhancer_id`
(`sort_values`'s default quicksort leaves the order of rows sharing an id
unspecified; the embedding fixes one permissible order with a stable sort). -/
def extract_hof_enhancers (metadata_df : List MetadataRow) (peak_data : List PeakRow) :
    List HofRow :=
  if peak_data = [] then []
  else
    let hof_enhancer_ids := dedupFirst [] (peak_data.map PeakRow.enhancer_id)
    if metadata_df ≠ [] then
      let hof_metadata := metadata_df.filter (fun m =>
        match m.enhancer_id with
        | some i => decide (i ∈ hof_enhancer_ids)
        | none => false)
      let missing_enhancers := hof_enhancer_ids.filter (fun i =>
        decide (some i ∉ hof_metadata.map MetadataRow.enhancer_id))
      let missing_df := missing_enhancers.map (fun eid =>
        placeholderRow eid
          (dedupFirst []
            ((peak_data.filter (fun r => r.enhancer_id == eid)).map PeakRow.cell_type)).length)
      List.insertionSort hofLe (hof_metadata.map hofRowOfMetadata ++ missing_df)
    else
      List.insertionSort hofLe
        (hof_enhancer_ids.filterMap (fun eid =>
          match peak_data.filter (fun r => r.enhancer_id == eid) with
          | [] => none
          | p :: ps => some (signalDerivedRow eid p (p :: ps))))

/-- One row of the chunked reconciler's output: coordinates from the first
signal row per enhancer, metadata fields filled by the left merge (NaN when
the enhancer is absent from metadata). -/
structure ChunkedHofRow where
  enhancer_id : String
  chr : String
  start : Int
  end_pos : Int
  cargo : Option String
  experiment : Option String
  proximal_gene : Option String
  deriving DecidableEq, Repr

/-- `DataProcessor.extract_hof_enhancers` of the chunked processor: build one
base row per distinct signal enhancer id (first-occurrence order, no sort),
then left-merge one representative metadata row per enhancer
(`groupby('enhancer_id').first()` takes the first non-null value per column
within each group; the sort of the groupby keys does not affect the lookup).
Ids absent from metadata keep NaN metadata fields — no placeholder text. -/
def extract_hof_enhancers_chunked (metadata_df : Option (List MetadataRow))
    (peak_data : List PeakRow) : List ChunkedHofRow :=
  if peak_data = [] then []
  else
    let hof_enhancer_ids := dedupFirst [] (peak_data.map PeakRow.enhancer_id)
    let hof_df := hof_enhancer_ids.filterMap (fun eid =>
      match peak_data.filter (fun r => r.enhancer_id == eid) with
      | [] => none
      | p :: _ => some ({ enhancer_id := eid, chr := p.chr, start := p.start,
                          end_pos := p.end_pos, cargo := none, experiment := none,
                          proximal_gene := none } : ChunkedHofRow))
    match metadata_df with
    | some md =>
      if md ≠ [] then
        hof_df.map (fun row =>
          let grp := md.filter (fun m => m.enhancer_id == some row.enhancer_id)
          if grp = [] then row
          else
            { row with cargo := (grp.filterMap MetadataRow.cargo).head?,
                       experiment := (grp.filterMap MetadataRow.experiment).head?,
                       proximal_gene := (grp.filterMap MetadataRow.proximal_gene).head? })
      else hof_df
    | none => hof_df

/-- C7 as amended: in the primary reconciler, every enhancer present in the
signal but absent from the metadata gets a placeholder row — cargo,
experiment and proximal_gene `Not specified` (experiment
`Hall of Fame Collection` when the metadata table is entirely absent) and a
cell_type summary string counting the distinct cell types of its signal rows.
(The chunked reconciler violates the claim: see the counterexample.) -/
theorem c7_placeholder_rows :
    (∀ (metadata_df : List MetadataRow) (peak_data : List PeakRow) (eid : String),
      metadata_df ≠ [] →
      eid ∈ peak_data.map PeakRow.enhancer_id →
      (∀ m ∈ metadata_df, m.enhancer_id ≠ some eid) →
      ∃ row ∈ extract_hof_enhancers metadata_df peak_data,
        row.enhancer_id = eid ∧ row.cargo = some "Not specified" ∧
          row.experiment = some "Not specified" ∧
          row.proximal_gene = some "Not specified" ∧
          row.cell_type = some (toString (dedupFirst []
            ((peak_data.filter (fun r => r.enhancer_id == eid)).map
              PeakRow.cell_type)).length ++ " cell types")) ∧
    (∀ (peak_data : List PeakRow) (eid : String),
      eid ∈ peak_data.map PeakRow.enhancer_id →
      ∃ row ∈ extract_hof_enhancers [] peak_data,
        row.enhancer_id = eid ∧ row.cargo = some "Not specified" ∧
          row.experiment = some "Hall of Fame Collection" ∧
          row.proximal_gene = some "Not specified" ∧
          row.cell_type = some (toString (dedupFirst []
            ((peak_data.filter (fun r => r.enhancer_id == eid)).map
              PeakRow.cell_type)).length ++ " cell types analyzed")) := by
  constructor
  · intro md pk eid hmd hin hnotin
    have hpk : pk ≠ [] := by
      intro h
      rw [h] at hin
      cases hin
    rw [extract_hof_enhancers, if_neg hpk, if_pos hmd]
    have heid_mem : eid ∈ dedupFirst [] (pk.map PeakRow.enhancer_id) :=
      (mem_dedupFirst [] _ eid).2 ⟨hin, List.not_mem_nil eid⟩
    have hnot : some eid ∉ (pk.map PeakRow.enhancer_id |> fun _ =>
        (md.filter (fun m =>
          match m.enhancer_id with
          | some i => decide (i ∈ dedupFirst [] (pk.map PeakRow.enhancer_id))
          | none => false)).map MetadataRow.enhancer_id) := by
      intro hc
      rcases List.mem_map.1 hc with ⟨m, hm, heq⟩
      exact hnotin m (List.mem_filter.1 hm).1 heq
    have hmissing : eid ∈ (dedupFirst [] (pk.map PeakRow.enhancer_id)).filter
        (fun i => decide (some i ∉ (md.filter (fun m =>
          match m.enhancer_id with
          | some i' => decide (i' ∈ dedupFirst [] (pk.map PeakRow.enhancer_id))
          | none => false)).map MetadataRow.enhancer_id)) :=
      List.mem_filter.2 ⟨heid_mem, decide_eq_true hnot⟩
    refine ⟨placeholderRow eid (dedupFirst []
      ((pk.filter (fun r : PeakRow => r.enhancer_id == eid)).map PeakRow.cell_type)).length,
      (List.perm_insertionSort hofLe _).mem_iff.2
        (List.mem_append_right _ (List.mem_map.2 ⟨eid, hmissing, rfl⟩)),
      rfl, rfl, rfl, rfl, rfl⟩
  · intro pk eid hin
    have hpk : pk ≠ [] := by
      intro h
      rw [h] at hin
      cases hin
    rw [extract_hof_enhancers, if_neg hpk, if_neg (by simp)]
    have heid_mem : eid ∈ dedupFirst [] (pk.map PeakRow.enhancer_id) :=
      (mem_dedupFirst [] _ eid).2 ⟨hin, List.not_mem_nil eid⟩
    cases hf : pk.filter (fun r => r.enhancer_id == eid) with
    | nil =>
      exfalso
      rcases List.mem_map.1 hin with ⟨r, hr, hre⟩
      have : r ∈ pk.filter (fun r => r.enhancer_id == eid) :=
        List.mem_filter.2 ⟨hr, by simp [hre]⟩
      rw [hf] at this
      cases this
    | cons p ps =>
      refine ⟨signalDerivedRow eid p (p :: ps),
        (List.perm_insertionSort hofLe _).mem_iff.2
          (List.mem_filterMap.2 ⟨eid, heid_mem, by simp only [hf]⟩),
        rfl, rfl, rfl, rfl, rfl⟩

/-- The metadata and signal tables of the spec's example scenario 2: no
metadata row for `E9`, three signal rows for `E9` with two distinct cell
types. -/
def mdScenario2 : List MetadataRow :=
  [ { enhancer_id := some "E1", cargo := some "AAV-X", experiment := some "exp1",
      proximal_gene := some "Gpr88", gc_delivered := some "1E11" } ]

def pkScenario2 : List PeakRow :=
  [ { enhancer_id := "E9", chr := "chr5", start := 10, end_pos := 20,
      cell_type := "1_A", position_index := 0, accessibility_score := 1 }
  , { enhancer_id := "E9", chr := "chr5", start := 10, end_pos := 20,
      cell_type := "2_B", position_index := 1, accessibility_score := 2 }
  , { enhancer_id := "E9", chr := "chr5", start := 10, end_pos := 20,
      cell_type := "1_A", position_index := 2, accessibility_score := 3 } ]

/-- Witness for C7 (amended): scenario 2 realised on the primary reconciler. -/
theorem c7_placeholder_rows_witness :
    (mdScenario2 ≠ []) ∧ ("E9" ∈ pkScenario2.map PeakRow.enhancer_id) ∧
      (∀ m ∈ mdScenario2, m.enhancer_id ≠ some "E9") ∧
      (∃ row ∈ extract_hof_enhancers mdScenario2 pkScenario2,
        row.enhancer_id = "E9" ∧ row.cargo = some "Not specified" ∧
          row.experiment = some "Not specified" ∧
          row.proximal_gene = some "Not specified" ∧
          row.cell_type = some (toString (dedupFirst []
            ((pkScenario2.filter (fun r => r.enhancer_id == "E9")).map
              PeakRow.cell_type)).length ++ " cell types")) :=
  ⟨by decide, by decide, by decide,
    c7_placeholder_rows.1 mdScenario2 pkScenario2 "E9" (by decide) (by decide) (by decide)⟩

/-- C7, counterexample: on the chunked reconciler, scenario 2's output row
for `E9` keeps NaN cargo/experiment/proximal_gene from the failed left merge
— no `Not specified` placeholder and no cell-type summary is produced. -/
theorem c7_counterexample :
    extract_hof_enhancers_chunked (some mdScenario2) pkScenario2 =
      [{ enhancer_id := "E9", chr := "chr5", start := 10, end_pos := 20,
         cargo := none, experiment := none, proximal_gene := none }] ∧
      (none : Option String) ≠ some "Not specified" := by
  constructor
  · decide
  · decide

/-- C8 as amended: the primary reconciler's output is sorted ascending
(lexicographic, code-point order) by `enhancer_id` for every metadata and
signal input; the chunked reconciler returns rows in first-occurrence order
and violates the claim (see the counterexample). -/
theorem c8_sorted_output (metadata_df : List MetadataRow) (peak_data : List PeakRow) :
    List.Sorted pyStrLe
      ((extract_hof_enhancers metadata_df peak_data).map HofRow.enhancer_id) := by
  have hsorted : ∀ L : List HofRow,
      List.Sorted pyStrLe ((List.insertionSort hofLe L).map HofRow.enhancer_id) := by
    intro L
    rw [List.Sorted, List.pairwise_map]
    exact List.sorted_insertionSort hofLe L
  rw [extract_hof_enhancers]
  by_cases hpk : peak_data = []
  · rw [if_pos hpk, List.map_nil]
    exact List.sorted_nil
  · rw [if_neg hpk]
    by_cases hmd : metadata_df ≠ []
    · rw [if_pos hmd]
      exact hsorted _
    · rw [if_neg hmd]
      exact hsorted _

/-- Two signal rows whose enhancer ids arrive in the order `B`, `A`. -/
def pkBA : List PeakRow :=
  [ { enhancer_id := "B", chr := "chr1", start := 1, end_pos := 2,
      cell_type := "1_A", position_index := 0, accessibility_score := 1 }
  , { enhancer_id := "A", chr := "chr1", start := 1, end_pos := 2,
      cell_type := "1_A", position_index := 0, accessibility_score := 1 } ]

/-- C8, counterexample: the chunked reconciler returns its rows in
first-occurrence order `B`, `A` — not sorted ascending by `enhancer_id`,
since `B` does not precede-or-equal `A`. -/
theorem c8_counterexample :
    ((extract_hof_enhancers_chunked none pkBA).map ChunkedHofRow.enhancer_id =
      ["B", "A"]) ∧ ¬ pyStrLe "B" "A" := by
  constructor
  · decide
  · decide

end HallOfFame
